import Mathlib

/-
Verification of the Fibonacci computation module.

Shallow embedding of the four Python source files:
  fibonacci_iterative.py   : fibonacci_iterative, get_nth_fibonacci_iterative
  fibonacci_recursive.py   : fibonacci_recursive_basic, fibonacci_recursive_memoized,
                             fibonacci_sequence_recursive
  Fibonnaci_function.py    : generate_fibonacci

Inputs are modelled as Int (Python ints can be negative); functions that
raise ValueError on negative input return Except String.  The memo
dictionary of the memoized strategy is modelled as an association list
from Int keys to Int values with Python dict semantics (assignment
overwrites an existing binding, lookup finds the binding if present).
-/

namespace Fib

/-- MemoCache models the Python dict used by fibonacci_recursive_memoized:
a finite mapping from Int keys to Int values. -/
abbrev MemoCache := List (Int × Int)

/-- Membership and indexing of a Python dict: the value bound to a key,
if any. -/
def MemoCache.lookup : MemoCache → Int → Option Int
  | [], _ => none
  | (k, v) :: rest, key => if k = key then some v else MemoCache.lookup rest key

/-- Assignment in a Python dict: overwrite the binding of the key if
present, otherwise append a fresh binding. -/
def MemoCache.insert : MemoCache → Int → Int → MemoCache
  | [], key, v => [(key, v)]
  | (k, w) :: rest, key, v =>
      if k = key then (key, v) :: rest else (k, w) :: MemoCache.insert rest key v

/-- Loop of get_nth_fibonacci_iterative: starting from the pair (a, b),
perform the update a, b = b, a + b a given number of times. -/
def iterLoop : Nat → Int × Int → Int × Int
  | 0, p => p
  | k + 1, (a, b) => iterLoop k (b, a + b)

/-- get_nth_fibonacci_iterative from fibonacci_iterative.py: raise on
negative n, return 0 for n = 0 and 1 for n = 1, otherwise run the rolling
pair update for n - 1 steps (the Python loop for _ in range(2, n + 1))
and return b. -/
def get_nth_fibonacci_iterative (n : Int) : Except String Int :=
  if n < 0 then .error "n must be non-negative"
  else if n = 0 then .ok 0
  else if n = 1 then .ok 1
  else .ok (iterLoop (n.toNat - 1) (0, 1)).2

/-- Loop of fibonacci_iterative / generate_fibonacci: starting from the
state (result, a, b), perform result.append(b); a, b = b, a + b a given
number of times. -/
def seqLoop : Nat → List Int × Int × Int → List Int × Int × Int
  | 0, s => s
  | k + 1, (res, a, b) => seqLoop k (res ++ [b], b, a + b)

/-- fibonacci_iterative from fibonacci_iterative.py: raise on negative n,
return [] for n = 0, [0] for n = 1, otherwise start from result = [0],
(a, b) = (0, 1) and run the append loop n - 1 times (the Python loop
for _ in range(1, n)). -/
def fibonacci_iterative (n : Int) : Except String (List Int) :=
  if n < 0 then .error "n must be non-negative"
  else if n = 0 then .ok []
  else if n = 1 then .ok [0]
  else .ok (seqLoop (n.toNat - 1) ([0], 0, 1)).1

/-- generate_fibonacci from Fibonnaci_function.py: return [] for n <= 0
(no exception is raised), [0] for n = 1, otherwise the same append loop
as fibonacci_iterative, run n - 1 times. -/
def generate_fibonacci (n : Int) : List Int :=
  if n ≤ 0 then []
  else if n = 1 then [0]
  else (seqLoop (n.toNat - 1) ([0], 0, 1)).1

/-- Recursion of fibonacci_recursive_basic on the non-negative part of
the input: F(0) = 0, F(1) = 1, F(n) = F(n-1) + F(n-2). -/
def fib_basic_nat : Nat → Int
  | 0 => 0
  | 1 => 1
  | k + 2 => fib_basic_nat (k + 1) + fib_basic_nat k

/-- fibonacci_recursive_basic from fibonacci_recursive.py: raise on
negative n, otherwise the direct recursion. -/
def fibonacci_recursive_basic (n : Int) : Except String Int :=
  if n < 0 then .error "n must be non-negative"
  else .ok (fib_basic_nat n.toNat)

/-- Recursion of fibonacci_recursive_memoized on the non-negative part of
the input, threading the memo dict.  For every n the cache is consulted
first (if n in memo: return memo[n]); the base cases n = 0 and n = 1
return 0 and 1 without touching the cache; the recursive case computes
F(n-1) with the incoming cache, F(n-2) with the cache produced by the
first call, stores the sum under key n and returns it. -/
def fib_memo_nat : Nat → MemoCache → Int × MemoCache
  | 0, memo =>
      match MemoCache.lookup memo ((0 : Nat) : Int) with
      | some v => (v, memo)
      | none => (0, memo)
  | 1, memo =>
      match MemoCache.lookup memo ((1 : Nat) : Int) with
      | some v => (v, memo)
      | none => (1, memo)
  | k + 2, memo =>
      match MemoCache.lookup memo ((k + 2 : Nat) : Int) with
      | some v => (v, memo)
      | none =>
          let p1 := fib_memo_nat (k + 1) memo
          let p2 := fib_memo_nat k p1.2
          (p1.1 + p2.1, MemoCache.insert p2.2 ((k + 2 : Nat) : Int) (p1.1 + p2.1))

/-- fibonacci_recursive_memoized from fibonacci_recursive.py: raise on
negative n; if no memo dict is supplied create a fresh empty one; then
run the memoized recursion.  The result is the returned value together
with the final state of the memo dict (which Python mutates in place). -/
def fibonacci_recursive_memoized (n : Int) (memo : Option MemoCache) :
    Except String (Int × MemoCache) :=
  if n < 0 then .error "n must be non-negative"
  else .ok (fib_memo_nat n.toNat (memo.getD []))

/-- fibonacci_sequence_recursive from fibonacci_recursive.py: raise on
negative n, otherwise append fibonacci_recursive_memoized(i) for
i in range(n); each call gets the default memo = None, hence a fresh
empty cache. -/
def fibonacci_sequence_recursive (n : Int) : Except String (List Int) :=
  if n < 0 then .error "n must be non-negative"
  else .ok ((List.range n.toNat).foldl (fun res i => res ++ [(fib_memo_nat i []).1]) [])

/-- A cache is consistent when every binding of a non-negative key holds
the Fibonacci value of that index. -/
def Consistent (m : MemoCache) : Prop :=
  ∀ (i : Nat) (v : Int), MemoCache.lookup m ((i : Nat) : Int) = some v → v = fib_basic_nat i

/-- The list of the first n Fibonacci values, the common value of the
two sequence-producing implementations. -/
def fibList (n : Nat) : List Int :=
  (List.range n).map (fun i => fib_basic_nat i)

theorem MemoCache.lookup_insert_self (m : MemoCache) (k v : Int) :
    MemoCache.lookup (MemoCache.insert m k v) k = some v := by
  induction m with
  | nil => simp [MemoCache.insert, MemoCache.lookup]
  | cons p rest ih =>
      obtain ⟨a, b⟩ := p
      by_cases h : a = k
      · simp [MemoCache.insert, MemoCache.lookup, h]
      · simp [MemoCache.insert, MemoCache.lookup, h, ih]

theorem MemoCache.lookup_insert_of_ne (m : MemoCache) (k v q : Int) (h : q ≠ k) :
    MemoCache.lookup (MemoCache.insert m k v) q = MemoCache.lookup m q := by
  have hkq : ¬ k = q := fun hh => h hh.symm
  induction m with
  | nil => simp [MemoCache.insert, MemoCache.lookup, hkq]
  | cons p rest ih =>
      obtain ⟨a, b⟩ := p
      by_cases ha : a = k
      · subst ha
        simp [MemoCache.insert, MemoCache.lookup, hkq]
      · by_cases hq : a = q
        · simp [MemoCache.insert, MemoCache.lookup, ha, hq, hkq, h]
        · simp [MemoCache.insert, MemoCache.lookup, ha, hq, ih]

theorem consistent_nil : Consistent [] := by
  intro i v h
  simp [MemoCache.lookup] at h

theorem consistent_insert (m : MemoCache) (j : Nat) (v : Int)
    (hm : Consistent m) (hv : v = fib_basic_nat j) :
    Consistent (MemoCache.insert m ((j : Nat) : Int) v) := by
  intro i w hw
  by_cases hij : i = j
  · subst hij
    rw [MemoCache.lookup_insert_self] at hw
    cases hw
    exact hv
  · have hne : ((i : Nat) : Int) ≠ ((j : Nat) : Int) := by
      intro hc
      exact hij (by exact_mod_cast hc)
    rw [MemoCache.lookup_insert_of_ne _ _ _ _ hne] at hw
    exact hm i w hw

theorem fib_basic_nat_add_two (k : Nat) :
    fib_basic_nat (k + 2) = fib_basic_nat (k + 1) + fib_basic_nat k := rfl

theorem iterLoop_fib (k : Nat) : ∀ i : Nat,
    iterLoop k (fib_basic_nat i, fib_basic_nat (i + 1)) =
      (fib_basic_nat (i + k), fib_basic_nat (i + k + 1)) := by
  induction k with
  | zero => intro i; rfl
  | succ k ih =>
      intro i
      have step : iterLoop (k + 1) (fib_basic_nat i, fib_basic_nat (i + 1)) =
          iterLoop k (fib_basic_nat (i + 1), fib_basic_nat i + fib_basic_nat (i + 1)) := rfl
      rw [step, add_comm (fib_basic_nat i), ← fib_basic_nat_add_two i]
      have h2 : fib_basic_nat (i + 2) = fib_basic_nat ((i + 1) + 1) := by norm_num
      rw [h2, ih (i + 1)]
      have e1 : i + 1 + k = i + (k + 1) := by omega
      rw [e1]

theorem get_nth_fibonacci_iterative_eq (n : Nat) :
    get_nth_fibonacci_iterative ((n : Nat) : Int) = .ok (fib_basic_nat n) := by
  match n with
  | 0 => rfl
  | 1 => rfl
  | k + 2 =>
      unfold get_nth_fibonacci_iterative
      rw [if_neg (by omega), if_neg (by omega), if_neg (by omega)]
      have ht : (((k + 2 : Nat) : Int)).toNat - 1 = k + 1 := by omega
      rw [ht]
      have h := iterLoop_fib (k + 1) 0
      simp only [Nat.zero_add] at h
      rw [show ((0 : Int), (1 : Int)) = (fib_basic_nat 0, fib_basic_nat 1) from rfl, h]

theorem seqLoop_fib (k : Nat) : ∀ (res : List Int) (i : Nat),
    seqLoop k (res, fib_basic_nat i, fib_basic_nat (i + 1)) =
      (res ++ (List.range k).map (fun j => fib_basic_nat (i + 1 + j)),
        fib_basic_nat (i + k), fib_basic_nat (i + k + 1)) := by
  induction k with
  | zero => intro res i; simp [seqLoop]
  | succ k ih =>
      intro res i
      have step : seqLoop (k + 1) (res, fib_basic_nat i, fib_basic_nat (i + 1)) =
          seqLoop k (res ++ [fib_basic_nat (i + 1)],
            fib_basic_nat (i + 1), fib_basic_nat i + fib_basic_nat (i + 1)) := rfl
      rw [step, add_comm (fib_basic_nat i), ← fib_basic_nat_add_two i]
      have h2 : fib_basic_nat (i + 2) = fib_basic_nat ((i + 1) + 1) := by norm_num
      rw [h2, ih (res ++ [fib_basic_nat (i + 1)]) (i + 1)]
      have hf : ((fun j => fib_basic_nat (i + 1 + j)) ∘ Nat.succ) =
          (fun j => fib_basic_nat (i + 1 + 1 + j)) := by
        funext j
        show fib_basic_nat (i + 1 + (j + 1)) = fib_basic_nat (i + 1 + 1 + j)
        congr 1
        omega
      have hmap : (List.range (k + 1)).map (fun j => fib_basic_nat (i + 1 + j)) =
          fib_basic_nat (i + 1) :: (List.range k).map (fun j => fib_basic_nat (i + 1 + 1 + j)) := by
        rw [List.range_succ_eq_map, List.map_cons, List.map_map, hf]
      rw [hmap]
      have e1 : i + (k + 1) = i + 1 + k := by omega
      rw [e1]
      simp [List.append_assoc]

theorem seq_core (k : Nat) :
    (seqLoop (k + 1) ([0], 0, 1)).1 = fibList (k + 2) := by
  have h := seqLoop_fib (k + 1) [0] 0
  simp only [Nat.zero_add] at h
  rw [show (([0] : List Int), (0 : Int), (1 : Int)) =
        (([0] : List Int), fib_basic_nat 0, fib_basic_nat 1) from rfl, h]
  have hf : ((fun j => fib_basic_nat j) ∘ Nat.succ) = (fun j => fib_basic_nat (1 + j)) := by
    funext j
    show fib_basic_nat (j + 1) = fib_basic_nat (1 + j)
    congr 1
    omega
  have hr : fibList (k + 2) =
      fib_basic_nat 0 :: (List.range (k + 1)).map (fun j => fib_basic_nat (1 + j)) := by
    show (List.range (k + 2)).map (fun i => fib_basic_nat i) = _
    rw [List.range_succ_eq_map, List.map_cons, List.map_map, hf]
  rw [hr]
  rfl

theorem fibonacci_iterative_eq (n : Nat) :
    fibonacci_iterative ((n : Nat) : Int) = .ok (fibList n) := by
  match n with
  | 0 => rfl
  | 1 => rfl
  | k + 2 =>
      unfold fibonacci_iterative
      rw [if_neg (by omega), if_neg (by omega), if_neg (by omega)]
      have ht : (((k + 2 : Nat) : Int)).toNat - 1 = k + 1 := by omega
      rw [ht, seq_core k]

theorem generate_fibonacci_eq (n : Nat) :
    generate_fibonacci ((n : Nat) : Int) = fibList n := by
  match n with
  | 0 => rfl
  | 1 => rfl
  | k + 2 =>
      unfold generate_fibonacci
      rw [if_neg (by omega), if_neg (by omega)]
      have ht : (((k + 2 : Nat) : Int)).toNat - 1 = k + 1 := by omega
      rw [ht, seq_core k]

theorem fib_memo_zero_eq (m : MemoCache) :
    fib_memo_nat 0 m =
      (match MemoCache.lookup m ((0 : Nat) : Int) with
        | some v => (v, m)
        | none => (0, m)) := rfl

theorem fib_memo_one_eq (m : MemoCache) :
    fib_memo_nat 1 m =
      (match MemoCache.lookup m ((1 : Nat) : Int) with
        | some v => (v, m)
        | none => (1, m)) := rfl

theorem fib_memo_step_eq (k : Nat) (m : MemoCache) :
    fib_memo_nat (k + 2) m =
      (match MemoCache.lookup m ((k + 2 : Nat) : Int) with
        | some v => (v, m)
        | none =>
            ((fib_memo_nat (k + 1) m).1 + (fib_memo_nat k (fib_memo_nat (k + 1) m).2).1,
              MemoCache.insert (fib_memo_nat k (fib_memo_nat (k + 1) m).2).2 ((k + 2 : Nat) : Int)
                ((fib_memo_nat (k + 1) m).1 + (fib_memo_nat k (fib_memo_nat (k + 1) m).2).1))) := rfl

theorem fib_memo_hit (n : Nat) (m : MemoCache) (v : Int)
    (h : MemoCache.lookup m ((n : Nat) : Int) = some v) :
    fib_memo_nat n m = (v, m) := by
  match n with
  | 0 => rw [fib_memo_zero_eq, h]
  | 1 => rw [fib_memo_one_eq, h]
  | k + 2 => rw [fib_memo_step_eq, h]

theorem fib_memo_zero_none (m : MemoCache)
    (h : MemoCache.lookup m ((0 : Nat) : Int) = none) :
    fib_memo_nat 0 m = (0, m) := by
  rw [fib_memo_zero_eq, h]

theorem fib_memo_one_none (m : MemoCache)
    (h : MemoCache.lookup m ((1 : Nat) : Int) = none) :
    fib_memo_nat 1 m = (1, m) := by
  rw [fib_memo_one_eq, h]

theorem fib_memo_step (k : Nat) (m : MemoCache)
    (h : MemoCache.lookup m ((k + 2 : Nat) : Int) = none) :
    fib_memo_nat (k + 2) m =
      ((fib_memo_nat (k + 1) m).1 + (fib_memo_nat k (fib_memo_nat (k + 1) m).2).1,
        MemoCache.insert (fib_memo_nat k (fib_memo_nat (k + 1) m).2).2 ((k + 2 : Nat) : Int)
          ((fib_memo_nat (k + 1) m).1 + (fib_memo_nat k (fib_memo_nat (k + 1) m).2).1)) := by
  rw [fib_memo_step_eq, h]

theorem fib_memo_correct (n : Nat) (m : MemoCache) : Consistent m →
    (fib_memo_nat n m).1 = fib_basic_nat n ∧ Consistent (fib_memo_nat n m).2 := by
  induction n, m using fib_memo_nat.induct with
  | case1 memo v h =>
      intro hm
      rw [fib_memo_hit 0 memo v h]
      exact ⟨hm 0 v h, hm⟩
  | case2 memo h =>
      intro hm
      rw [fib_memo_zero_none memo h]
      exact ⟨rfl, hm⟩
  | case3 memo v h =>
      intro hm
      rw [fib_memo_hit 1 memo v h]
      exact ⟨hm 1 v h, hm⟩
  | case4 memo h =>
      intro hm
      rw [fib_memo_one_none memo h]
      exact ⟨rfl, hm⟩
  | case5 k memo v h =>
      intro hm
      rw [fib_memo_hit (k + 2) memo v h]
      exact ⟨hm (k + 2) v h, hm⟩
  | case6 k memo h p1 ih1 ih2 =>
      intro hm
      have h1 := ih1 hm
      have h2 := ih2 h1.2
      rw [fib_memo_step k memo h]
      refine ⟨?_, ?_⟩
      · show (fib_memo_nat (k + 1) memo).1 + (fib_memo_nat k (fib_memo_nat (k + 1) memo).2).1 =
          fib_basic_nat (k + 2)
        rw [h1.1, h2.1, fib_basic_nat_add_two]
      · show Consistent (MemoCache.insert (fib_memo_nat k (fib_memo_nat (k + 1) memo).2).2
          ((k + 2 : Nat) : Int)
          ((fib_memo_nat (k + 1) memo).1 + (fib_memo_nat k (fib_memo_nat (k + 1) memo).2).1))
        refine consistent_insert _ (k + 2) _ h2.2 ?_
        rw [h1.1, h2.1, fib_basic_nat_add_two]

theorem fib_memo_preserves (n : Nat) (m : MemoCache) :
    ∀ (q w : Int), MemoCache.lookup m q = some w →
      MemoCache.lookup (fib_memo_nat n m).2 q = some w := by
  induction n, m using fib_memo_nat.induct with
  | case1 memo v h =>
      intro q w hq
      rw [fib_memo_hit 0 memo v h]
      exact hq
  | case2 memo h =>
      intro q w hq
      rw [fib_memo_zero_none memo h]
      exact hq
  | case3 memo v h =>
      intro q w hq
      rw [fib_memo_hit 1 memo v h]
      exact hq
  | case4 memo h =>
      intro q w hq
      rw [fib_memo_one_none memo h]
      exact hq
  | case5 k memo v h =>
      intro q w hq
      rw [fib_memo_hit (k + 2) memo v h]
      exact hq
  | case6 k memo h p1 ih1 ih2 =>
      intro q w hq
      have h1 := ih1 q w hq
      have h2 := ih2 q w h1
      rw [fib_memo_step k memo h]
      show MemoCache.lookup (MemoCache.insert (fib_memo_nat k (fib_memo_nat (k + 1) memo).2).2
        ((k + 2 : Nat) : Int)
        ((fib_memo_nat (k + 1) memo).1 + (fib_memo_nat k (fib_memo_nat (k + 1) memo).2).1)) q =
        some w
      by_cases hkey : q = ((k + 2 : Nat) : Int)
      · subst hkey
        rw [h] at hq
        cases hq
      · rw [MemoCache.lookup_insert_of_ne _ _ _ _ hkey]
        exact h2

theorem fib_memo_idem (n : Nat) (m : MemoCache) :
    fib_memo_nat n (fib_memo_nat n m).2 = fib_memo_nat n m := by
  match n with
  | 0 =>
      cases h : MemoCache.lookup m ((0 : Nat) : Int) with
      | some v =>
          rw [fib_memo_hit 0 m v h]
          exact fib_memo_hit 0 m v h
      | none =>
          rw [fib_memo_zero_none m h]
          exact fib_memo_zero_none m h
  | 1 =>
      cases h : MemoCache.lookup m ((1 : Nat) : Int) with
      | some v =>
          rw [fib_memo_hit 1 m v h]
          exact fib_memo_hit 1 m v h
      | none =>
          rw [fib_memo_one_none m h]
          exact fib_memo_one_none m h
  | k + 2 =>
      cases h : MemoCache.lookup m ((k + 2 : Nat) : Int) with
      | some v =>
          rw [fib_memo_hit (k + 2) m v h]
          exact fib_memo_hit (k + 2) m v h
      | none =>
          rw [fib_memo_step k m h]
          exact fib_memo_hit (k + 2) _ _ (MemoCache.lookup_insert_self _ _ _)

theorem foldl_append_map (f : Nat → Int) : ∀ (l : List Nat) (acc : List Int),
    l.foldl (fun res i => res ++ [f i]) acc = acc ++ l.map f := by
  intro l
  induction l with
  | nil => intro acc; simp
  | cons a t ih =>
      intro acc
      rw [List.foldl_cons, ih (acc ++ [f a]), List.map_cons]
      simp

theorem fibonacci_sequence_recursive_eq (n : Nat) :
    fibonacci_sequence_recursive ((n : Nat) : Int) = .ok (fibList n) := by
  unfold fibonacci_sequence_recursive
  rw [if_neg (by omega), Int.toNat_natCast]
  rw [foldl_append_map (fun i => (fib_memo_nat i []).1) (List.range n) []]
  rw [List.nil_append]
  refine congrArg Except.ok ?_
  refine List.map_congr_left ?_
  intro i _
  exact (fib_memo_correct i [] consistent_nil).1

theorem fibList_zero_mem (n : Nat) (h : 1 ≤ n) : (fibList n)[0]? = some 0 := by
  have h0 : (0 : Nat) < n := h
  simp [fibList, List.getElem?_map, List.getElem?_range h0]
  rfl

theorem fibList_one_mem (n : Nat) (h : 2 ≤ n) : (fibList n)[1]? = some 1 := by
  have h1 : (1 : Nat) < n := h
  simp [fibList, List.getElem?_map, List.getElem?_range h1]
  rfl

/-- Claim C1: for every n >= 0 the three single-value strategies agree:
get_nth_fibonacci_iterative, fibonacci_recursive_basic, and
fibonacci_recursive_memoized called with a fresh cache all return the
same integer. -/
theorem C1_single_value_strategies_agree (n : Nat) :
    ∃ (v : Int) (c : MemoCache),
      get_nth_fibonacci_iterative ((n : Nat) : Int) = .ok v ∧
      fibonacci_recursive_basic ((n : Nat) : Int) = .ok v ∧
      fibonacci_recursive_memoized ((n : Nat) : Int) none = .ok (v, c) := by
  refine ⟨fib_basic_nat n, (fib_memo_nat n []).2,
    get_nth_fibonacci_iterative_eq n, ?_, ?_⟩
  · unfold fibonacci_recursive_basic
    rw [if_neg (by omega), Int.toNat_natCast]
  · unfold fibonacci_recursive_memoized
    rw [if_neg (by omega), Int.toNat_natCast]
    show Except.ok (fib_memo_nat n []) = Except.ok (fib_basic_nat n, (fib_memo_nat n []).2)
    rw [← (fib_memo_correct n [] consistent_nil).1]

/-- Claim C2: get_nth_fibonacci_iterative satisfies the mathematical
Fibonacci reference definition: it returns 0 at 0, 1 at 1, and for every
n >= 2 its result is the sum of its results at n-1 and n-2. -/
theorem C2_iterative_recurrence :
    get_nth_fibonacci_iterative 0 = .ok 0 ∧
    get_nth_fibonacci_iterative 1 = .ok 1 ∧
    ∀ n : Nat, ∃ a b c : Int,
      get_nth_fibonacci_iterative ((n : Nat) : Int) = .ok a ∧
      get_nth_fibonacci_iterative ((n + 1 : Nat) : Int) = .ok b ∧
      get_nth_fibonacci_iterative ((n + 2 : Nat) : Int) = .ok c ∧
      c = b + a := by
  refine ⟨rfl, rfl, fun n => ⟨fib_basic_nat n, fib_basic_nat (n + 1), fib_basic_nat (n + 2),
    get_nth_fibonacci_iterative_eq n, get_nth_fibonacci_iterative_eq (n + 1),
    get_nth_fibonacci_iterative_eq (n + 2), rfl⟩⟩

/-- Claim C3: for every n >= 0 the two sequence-producing strategies
agree element for element and each returned list has length exactly n. -/
theorem C3_sequence_strategies_agree (n : Nat) :
    ∃ l : List Int,
      fibonacci_iterative ((n : Nat) : Int) = .ok l ∧
      fibonacci_sequence_recursive ((n : Nat) : Int) = .ok l ∧
      l.length = n :=
  ⟨fibList n, fibonacci_iterative_eq n, fibonacci_sequence_recursive_eq n, by simp [fibList]⟩

/-- Claim C4, counterexample: calling fibonacci_recursive_memoized on the
base cases 0 and 1 with an empty cache returns 0 and 1 but hands back the
empty cache unchanged; contrary to the claim, afterwards the cache does
not map key 0 to 0, nor key 1 to 1. -/
theorem C4_counterexample_base_case_not_written :
    fibonacci_recursive_memoized 0 (some []) = .ok (0, ([] : MemoCache)) ∧
    fibonacci_recursive_memoized 1 (some []) = .ok (1, ([] : MemoCache)) ∧
    MemoCache.lookup ([] : MemoCache) 0 = none ∧
    MemoCache.lookup ([] : MemoCache) 1 = none :=
  ⟨rfl, rfl, rfl, rfl⟩

/-- Claim C4 as amended: when fibonacci_recursive_memoized computes a
base case (n = 0 or n = 1 not already cached) it returns 0 respectively
1, but the base-case values are not written to the cache: the cache is
returned unchanged. -/
theorem C4_base_case_returns_without_write (m : MemoCache)
    (h0 : MemoCache.lookup m 0 = none) (h1 : MemoCache.lookup m 1 = none) :
    fibonacci_recursive_memoized 0 (some m) = .ok (0, m) ∧
    fibonacci_recursive_memoized 1 (some m) = .ok (1, m) := by
  constructor
  · unfold fibonacci_recursive_memoized
    rw [if_neg (by decide)]
    show Except.ok (fib_memo_nat 0 m) = Except.ok (0, m)
    rw [fib_memo_zero_none m h0]
  · unfold fibonacci_recursive_memoized
    rw [if_neg (by decide)]
    show Except.ok (fib_memo_nat 1 m) = Except.ok (1, m)
    rw [fib_memo_one_none m h1]

theorem C4_base_case_returns_without_write_witness :
    fibonacci_recursive_memoized 0 (some []) = .ok (0, ([] : MemoCache)) ∧
    fibonacci_recursive_memoized 1 (some []) = .ok (1, ([] : MemoCache)) :=
  C4_base_case_returns_without_write [] rfl rfl

/-- Claim C5, counterexample: generate_fibonacci does not raise on
n = -1; it returns the empty list normally (its result type has no error
outcome at all, matching the source, which has no raise statement). -/
theorem C5_counterexample_generate_returns_normally :
    generate_fibonacci (-1) = [] := rfl

/-- Claim C5 as amended: for every negative n the operations of
fibonacci_iterative.py and fibonacci_recursive.py raise ValueError,
but generate_fibonacci from Fibonnaci_function.py does not raise: it
returns the empty list instead. -/
theorem C5_negative_input_behaviour (n : Int) (memo : Option MemoCache) (h : n < 0) :
    get_nth_fibonacci_iterative n = .error "n must be non-negative" ∧
    fibonacci_iterative n = .error "n must be non-negative" ∧
    fibonacci_recursive_basic n = .error "n must be non-negative" ∧
    fibonacci_recursive_memoized n memo = .error "n must be non-negative" ∧
    fibonacci_sequence_recursive n = .error "n must be non-negative" ∧
    generate_fibonacci n = [] := by
  refine ⟨?_, ?_, ?_, ?_, ?_, ?_⟩
  · unfold get_nth_fibonacci_iterative
    rw [if_pos h]
  · unfold fibonacci_iterative
    rw [if_pos h]
  · unfold fibonacci_recursive_basic
    rw [if_pos h]
  · unfold fibonacci_recursive_memoized
    rw [if_pos h]
  · unfold fibonacci_sequence_recursive
    rw [if_pos h]
  · unfold generate_fibonacci
    rw [if_pos (le_of_lt h)]

theorem C5_negative_input_behaviour_witness :
    get_nth_fibonacci_iterative (-1) = .error "n must be non-negative" ∧
    fibonacci_iterative (-1) = .error "n must be non-negative" ∧
    fibonacci_recursive_basic (-1) = .error "n must be non-negative" ∧
    fibonacci_recursive_memoized (-1) none = .error "n must be non-negative" ∧
    fibonacci_sequence_recursive (-1) = .error "n must be non-negative" ∧
    generate_fibonacci (-1) = [] :=
  C5_negative_input_behaviour (-1) none (by decide)

/-- Claim C6: invoking fibonacci_recursive_memoized(10, cache) twice with
the same cache returns the same value both times and the second call
leaves the whole cache (in particular its entry for key 10) exactly as
the first call left it. -/
theorem C6_memoized_idempotent (m : MemoCache) (v1 : Int) (c1 : MemoCache)
    (h : fibonacci_recursive_memoized 10 (some m) = .ok (v1, c1)) :
    fibonacci_recursive_memoized 10 (some c1) = .ok (v1, c1) := by
  have h2 : fib_memo_nat 10 m = (v1, c1) := by
    have h3 : (Except.ok (fib_memo_nat 10 m) : Except String (Int × MemoCache)) =
        .ok (v1, c1) := h
    injection h3
  show Except.ok (fib_memo_nat 10 c1) = Except.ok (v1, c1)
  have h4 : c1 = (fib_memo_nat 10 m).2 := by rw [h2]
  rw [← h2, h4, fib_memo_idem 10 m]

theorem C6_memoized_idempotent_witness :
    fibonacci_recursive_memoized 10
        (some [((2 : Int), (1 : Int)), (3, 2), (4, 3), (5, 5), (6, 8),
          (7, 13), (8, 21), (9, 34), (10, 55)]) =
      .ok (55, [((2 : Int), (1 : Int)), (3, 2), (4, 3), (5, 5), (6, 8),
        (7, 13), (8, 21), (9, 34), (10, 55)]) :=
  C6_memoized_idempotent [] 55
    [(2, 1), (3, 2), (4, 3), (5, 5), (6, 8), (7, 13), (8, 21), (9, 34), (10, 55)] rfl

/-- Claim C7: a call to fibonacci_recursive_memoized never replaces an
existing cache entry: every key bound in the cache before the call is
bound to the same value after the call. -/
theorem C7_cache_never_overwritten (n : Nat) (m : MemoCache) (q w : Int)
    (r : Int × MemoCache)
    (hq : MemoCache.lookup m q = some w)
    (hr : fibonacci_recursive_memoized ((n : Nat) : Int) (some m) = .ok r) :
    MemoCache.lookup r.2 q = some w := by
  have h2 : fib_memo_nat n m = r := by
    have h4 : fibonacci_recursive_memoized ((n : Nat) : Int) (some m) =
        Except.ok (fib_memo_nat n m) := by
      unfold fibonacci_recursive_memoized
      rw [if_neg (by omega), Int.toNat_natCast, Option.getD_some]
    have h3 : (Except.ok (fib_memo_nat n m) : Except String (Int × MemoCache)) = .ok r := by
      rw [← h4]
      exact hr
    injection h3
  rw [← h2]
  exact fib_memo_preserves n m q w hq

theorem C7_cache_never_overwritten_witness :
    MemoCache.lookup ((((2 : Int), [((1 : Int), (1 : Int)), (2, 1), (3, 2)]) :
      Int × MemoCache)).2 1 = some 1 :=
  C7_cache_never_overwritten 3 [(1, 1)] 1 1 (2, [(1, 1), (2, 1), (3, 2)]) rfl rfl

/-- Claim C8: at n = 0 every sequence-producing operation returns the
empty list and get_nth_fibonacci_iterative returns 0. -/
theorem C8_zero_boundary :
    fibonacci_iterative 0 = .ok [] ∧
    generate_fibonacci 0 = [] ∧
    fibonacci_sequence_recursive 0 = .ok [] ∧
    get_nth_fibonacci_iterative 0 = .ok 0 :=
  ⟨rfl, rfl, rfl, rfl⟩

/-- Claim C9: for every n >= 1, the sequences produced by
fibonacci_iterative, fibonacci_sequence_recursive and generate_fibonacci
begin with 0, and when n >= 2 their second element is 1. -/
theorem C9_sequence_initial_terms (n : Nat) (h1 : 1 ≤ n) :
    ∃ li lr : List Int,
      fibonacci_iterative ((n : Nat) : Int) = .ok li ∧
      fibonacci_sequence_recursive ((n : Nat) : Int) = .ok lr ∧
      li[0]? = some 0 ∧ lr[0]? = some 0 ∧
      (generate_fibonacci ((n : Nat) : Int))[0]? = some 0 ∧
      (2 ≤ n → li[1]? = some 1 ∧ lr[1]? = some 1 ∧
        (generate_fibonacci ((n : Nat) : Int))[1]? = some 1) := by
  refine ⟨fibList n, fibList n, fibonacci_iterative_eq n, fibonacci_sequence_recursive_eq n,
    fibList_zero_mem n h1, fibList_zero_mem n h1, ?_, ?_⟩
  · rw [generate_fibonacci_eq n]
    exact fibList_zero_mem n h1
  · intro h2
    refine ⟨fibList_one_mem n h2, fibList_one_mem n h2, ?_⟩
    rw [generate_fibonacci_eq n]
    exact fibList_one_mem n h2

theorem C9_sequence_initial_terms_witness :
    ∃ li lr : List Int,
      fibonacci_iterative ((2 : Nat) : Int) = .ok li ∧
      fibonacci_sequence_recursive ((2 : Nat) : Int) = .ok lr ∧
      li[0]? = some 0 ∧ lr[0]? = some 0 ∧
      (generate_fibonacci ((2 : Nat) : Int))[0]? = some 0 ∧
      (2 ≤ 2 → li[1]? = some 1 ∧ lr[1]? = some 1 ∧
        (generate_fibonacci ((2 : Nat) : Int))[1]? = some 1) :=
  C9_sequence_initial_terms 2 (by decide)

/-- Claim C10: when the cache already binds key n to v,
fibonacci_recursive_memoized(n, cache) returns exactly v (whatever v is)
and hands the cache back unchanged: no entry is added, removed or
modified on a cache hit. -/
theorem C10_cache_hit_frame (n : Nat) (m : MemoCache) (v : Int)
    (h : MemoCache.lookup m ((n : Nat) : Int) = some v) :
    fibonacci_recursive_memoized ((n : Nat) : Int) (some m) = .ok (v, m) := by
  unfold fibonacci_recursive_memoized
  rw [if_neg (by omega), Int.toNat_natCast, Option.getD_some, fib_memo_hit n m v h]

theorem C10_cache_hit_frame_witness :
    fibonacci_recursive_memoized 5 (some [((5 : Int), (42 : Int))]) =
      .ok (42, [((5 : Int), (42 : Int))]) :=
  C10_cache_hit_frame 5 [(5, 42)] 42 (by decide)

end Fib
